import Mathlib

set_option maxHeartbeats 1000000

/-! Shallow embedding of the connector connection-state reconciliation engine:
the Composio service (`src/main/composio-service.ts`) and the Composio
connectors router (`src/unnamed/part_006`).  Remote HTTP interactions are
modelled by passing each operation the decoded response it would observe
(a `none` response standing for a non-ok status or a thrown fetch error);
`Date.now()` / `new Date()` by an explicit `now : Nat` in milliseconds; and
the two SQLite tables by lists of rows, read and written through the
`(clerk_user_id, toolkit_name)` unique key that migration
`drizzle/0005_glamorous_scorpion.sql` declares on both tables. -/

/-- `ConnectionStatus` of composio-service.ts. -/
inductive ConnState where
  | connected
  | disconnected
  | pending
  | error
  deriving DecidableEq, Repr

/-- A row of `composio_connections`.  The generated `id` primary key and the
schema-defaulted `created_at` are never observed by the modelled operations
and are omitted; `updated_at` is `none` where an insert leaves it to the
column default.  The unique index on `(clerk_user_id, toolkit_name)` makes
drizzle's update-by-`id` coincide with update-by-key. -/
structure ConnectionRecord where
  clerkUserId : String
  toolkitName : String
  displayName : String
  status : ConnState
  connectedAt : Option Nat
  metadata : Option String
  updatedAt : Option Nat
  deriving DecidableEq, Repr

/-- A row of `composio_enabled_toolkits` (id / created_at omitted as above). -/
structure EnabledToolkitRecord where
  clerkUserId : String
  toolkitName : String
  enabled : Bool
  deriving DecidableEq, Repr

/-- The persisted state: both tables. -/
structure Db where
  connections : List ConnectionRecord
  enabledToolkits : List EnabledToolkitRecord
  deriving DecidableEq, Repr

def emptyDb : Db := { connections := [], enabledToolkits := [] }

/-- The `where and(eq(clerkUserId, u), eq(toolkitName, t))` filter on
`composio_connections`. -/
def connKey (u t : String) (c : ConnectionRecord) : Bool :=
  c.clerkUserId == u && c.toolkitName == t

/-- The same filter on `composio_enabled_toolkits`. -/
def enabledKey (u t : String) (e : EnabledToolkitRecord) : Bool :=
  e.clerkUserId == u && e.toolkitName == t

/-- `UPDATE ... WHERE p`: rewrite every row matching `p` (at most one row by
the unique index). -/
def updateBy (p : α → Bool) (f : α → α) : List α → List α :=
  List.map fun c => if p c then f c else c

/-- `db.select().from(composioConnections).where(key).get()`. -/
def findConnection (db : Db) (u t : String) : Option ConnectionRecord :=
  db.connections.find? (connKey u t)

/-- The enabled flag stored for `(u, t)`: `none` when no row exists. -/
def findEnabled (db : Db) (u t : String) : Option Bool :=
  (db.enabledToolkits.find? (enabledKey u t)).map (·.enabled)

def updateConnections (db : Db) (u t : String) (f : ConnectionRecord → ConnectionRecord) : Db :=
  { db with connections := updateBy (connKey u t) f db.connections }

def insertConnection (db : Db) (c : ConnectionRecord) : Db :=
  { db with connections := c :: db.connections }

/-- The select / if-existing-update-else-insert pattern the router uses on
`composio_enabled_toolkits` (in `toggleToolkit`, `pollConnectionStatus` and
`syncConnections`; the latter's skip of an update when the flag already holds
the target value is value-equivalent to the unconditional update). -/
def upsertEnabled (db : Db) (u t : String) (b : Bool) : Db :=
  match db.enabledToolkits.find? (enabledKey u t) with
  | some _ =>
    { db with enabledToolkits :=
        updateBy (enabledKey u t) (fun e => { e with enabled := b }) db.enabledToolkits }
  | none =>
    { db with enabledToolkits :=
        { clerkUserId := u, toolkitName := t, enabled := b } :: db.enabledToolkits }

/-- Plain `UPDATE` of the enabled flag (used by `disconnect`: no insert). -/
def updateEnabled (db : Db) (u t : String) (b : Bool) : Db :=
  { db with enabledToolkits :=
      updateBy (enabledKey u t) (fun e => { e with enabled := b }) db.enabledToolkits }

/-- `McpServer` of composio-service.ts. -/
structure McpServer where
  id : String
  name : String
  toolkits : List String
  deriving DecidableEq, Repr

/-- The `ComposioService` instance fields backing the two process-local
caches. -/
structure McpCache where
  cachedMcpServer : Option McpServer
  cachedMcpUrl : Option String
  mcpUrlExpiry : Nat
  cachedUserId : Option String
  cachedToolkits : List String
  deriving DecidableEq, Repr

/-- `invalidateSession()`: unconditionally clears every cache field. -/
def invalidateSession (_cache : McpCache) : McpCache :=
  { cachedMcpServer := none, cachedMcpUrl := none, mcpUrlExpiry := 0,
    cachedUserId := none, cachedToolkits := [] }

/-- The remote requests an operation issues, in order. -/
inductive RemoteCall where
  | listServers
  | createServer (name : String)
  | generateUrl (serverId userId : String)
  | authorize (toolkitSlug : String)
  | deleteAccount
  deriving DecidableEq, Repr

/-- JS `String.prototype.toUpperCase()` on the ASCII status vocabulary the
service compares against, modelled character by character. -/
def jsToUpper (s : String) : String := ⟨s.data.map Char.toUpper⟩

/-- The status mapping of `getConnectionStatus` applied to the uppercased
remote status string (composio-service.ts lines 489-494). -/
def mapRemoteStatusU (st : String) : ConnState :=
  if st = "ACTIVE" then .connected
  else if st = "INITIATED" ∨ st = "INITIALIZING" then .pending
  else if st = "FAILED" ∨ st = "EXPIRED" ∨ st = "INACTIVE" then .error
  else .disconnected

/-- What `getConnectionStatus` observes from `GET /connected_accounts`:
a non-ok response or thrown fetch error, no account whose toolkit matches,
or the matching account's raw `status` string. -/
inductive RemoteLookup where
  | fail
  | notFound
  | found (status : String)
  deriving DecidableEq, Repr

/-- `getConnectionStatus` of composio-service.ts. -/
def getConnectionStatus (configured : Bool) (userId : Option String)
    (remote : RemoteLookup) : ConnState :=
  if !configured then .disconnected
  else
    match userId with
    | none => .disconnected
    | some _ =>
      match remote with
      | .fail => .error
      | .notFound => .disconnected
      | .found s => mapRemoteStatusU (jsToUpper s)

/-- Insertion step of the sort used to model JS `Array.prototype.sort()` on
the copies `arraysEqual` makes. -/
def insortStr (x : String) : List String → List String
  | [] => [x]
  | y :: ys => if x ≤ y then x :: y :: ys else y :: insortStr x ys

/-- JS `[...a].sort()` modelled as insertion sort over string order. -/
def sortStr : List String → List String
  | [] => []
  | x :: xs => insortStr x (sortStr xs)

/-- `arraysEqual` of composio-service.ts: length check, then the sorted
copies compared element by element. -/
def arraysEqual (a b : List String) : Bool :=
  a.length == b.length && sortStr a == sortStr b

/-- A server object from `GET /mcp/servers` (its `toolkits` field may be
absent). -/
structure RemoteServer where
  id : String
  name : String
  toolkits : Option (List String)
  deriving DecidableEq, Repr

/-- Decoded remote responses an MCP-session build may consume:
`GET /mcp/servers`, the resolved id from `POST /mcp/servers/custom`
(`createData.id || createData.mcp_server?.id`), and the resolved url from
`POST /mcp/servers/generate` (`user_ids_url?.[0] || url || mcp_url`). -/
structure McpEnv where
  listServersResult : Option (List RemoteServer)
  createServerId : Option String
  generateUrlResult : Option String
  deriving DecidableEq, Repr

/-- `servers.find(s => s.toolkits && arraysEqual(s.toolkits.sort(), toolkits.sort()))`
over the (possibly failed) `GET /mcp/servers` response. -/
def findExistingServer (env : McpEnv) (toolkits : List String) : Option RemoteServer :=
  match env.listServersResult with
  | some servers =>
    servers.find? fun s =>
      match s.toolkits with
      | some tk => arraysEqual (sortStr tk) (sortStr toolkits)
      | none => false
  | none => none

/-- The cache-miss body of `getOrCreateMcpServer`: list existing servers,
reuse one whose toolkit set matches, otherwise create `anchor-${Date.now()}`. -/
def getOrCreateMcpServerRemote (cache : McpCache) (toolkits : List String)
    (env : McpEnv) (now : Nat) : Option McpServer × McpCache × List RemoteCall :=
  match findExistingServer env toolkits with
  | some s =>
    let srv : McpServer := { id := s.id, name := s.name, toolkits := s.toolkits.getD toolkits }
    (some srv, { cache with cachedMcpServer := some srv, cachedToolkits := toolkits },
     [.listServers])
  | none =>
    let serverName := "anchor-" ++ toString now
    match env.createServerId with
    | none => (none, cache, [.listServers, .createServer serverName])
    | some sid =>
      let srv : McpServer := { id := sid, name := serverName, toolkits := toolkits }
      (some srv, { cache with cachedMcpServer := some srv, cachedToolkits := toolkits },
       [.listServers, .createServer serverName])

/-- `getOrCreateMcpServer` of composio-service.ts: cache hit when a server is
cached and `arraysEqual(cachedToolkits, toolkits)`. -/
def getOrCreateMcpServer (cache : McpCache) (toolkits : List String)
    (env : McpEnv) (now : Nat) : Option McpServer × McpCache × List RemoteCall :=
  match cache.cachedMcpServer with
  | some srv =>
    if arraysEqual cache.cachedToolkits toolkits then (some srv, cache, [])
    else getOrCreateMcpServerRemote cache toolkits env now
  | none => getOrCreateMcpServerRemote cache toolkits env now

/-- The cache-miss body of `generateMcpUrl`: mint a user-scoped url and cache
it with a fixed 30-minute expiry from `now`. -/
def generateMcpUrlMint (cache : McpCache) (serverId userId : String) (now : Nat)
    (remoteUrl : Option String) : Option String × McpCache × List RemoteCall :=
  match remoteUrl with
  | none => (none, cache, [.generateUrl serverId userId])
  | some url =>
    (some url,
     { cache with cachedMcpUrl := some url, cachedUserId := some userId,
                  mcpUrlExpiry := now + 30 * 60 * 1000 },
     [.generateUrl serverId userId])

/-- `generateMcpUrl` of composio-service.ts: cache hit requires a cached url,
the same user and `Date.now() < mcpUrlExpiry`. -/
def generateMcpUrl (cache : McpCache) (serverId userId : String) (now : Nat)
    (remoteUrl : Option String) : Option String × McpCache × List RemoteCall :=
  match cache.cachedMcpUrl with
  | some url =>
    if cache.cachedUserId = some userId ∧ now < cache.mcpUrlExpiry then
      (some url, cache, [])
    else generateMcpUrlMint cache serverId userId now remoteUrl
  | none => generateMcpUrlMint cache serverId userId now remoteUrl

/-- The `{ url, headers }` config returned to the Claude SDK. -/
structure McpConfig where
  url : String
  apiKeyHeader : String
  deriving DecidableEq, Repr

/-- `getMcpConfig` of composio-service.ts (the service method). -/
def serviceGetMcpConfig (apiKey : String) (userId : Option String)
    (enabledToolkits : List String) (cache : McpCache) (env : McpEnv) (now : Nat) :
    Option McpConfig × McpCache × List RemoteCall :=
  if apiKey.length = 0 then (none, cache, [])
  else
    match userId with
    | none => (none, cache, [])
    | some uid =>
      if enabledToolkits.isEmpty then (none, cache, [])
      else
        match getOrCreateMcpServer cache enabledToolkits env now with
        | (none, cache1, t1) => (none, cache1, t1)
        | (some srv, cache1, t1) =>
          match generateMcpUrl cache1 srv.id uid now env.generateUrlResult with
          | (none, cache2, t2) => (none, cache2, t1 ++ t2)
          | (some url, cache2, t2) =>
            (some { url := url, apiKeyHeader := apiKey }, cache2, t1 ++ t2)

/-- The router's `getMcpConfig` procedure: configured check, auth check,
enabled-toolkit names from the table, then the service method. -/
def routerGetMcpConfig (apiKey : String) (auth : Option String) (db : Db)
    (cache : McpCache) (env : McpEnv) (now : Nat) :
    Option McpConfig × McpCache × List RemoteCall :=
  if apiKey.length = 0 then (none, cache, [])
  else
    match auth with
    | none => (none, cache, [])
    | some u =>
      let enabledNames :=
        (db.enabledToolkits.filter fun e => e.clerkUserId == u && e.enabled).map
          (·.toolkitName)
      if enabledNames.isEmpty then (none, cache, [])
      else serviceGetMcpConfig apiKey (some u) enabledNames cache env now

/-- The TRPCError codes the router throws. -/
inductive TrpcErr where
  | unauthorized (message : String)
  | internalServerError (message : String)
  deriving DecidableEq, Repr

/-- The router's `toggleToolkit` procedure (authenticated path): upsert the
flag to the requested value, then `invalidateSession()`. -/
def toggleToolkit (u : String) (db : Db) (toolkitName : String) (enabled : Bool)
    (cache : McpCache) : Db × McpCache :=
  (upsertEnabled db u toolkitName enabled, invalidateSession cache)

/-- What a successful `service.authorizeToolkit` resolves to. -/
structure AuthorizeRes where
  redirectUrl : String
  connectionId : String
  deriving DecidableEq, Repr

/-- The user-facing message of the `connect` failure (part_006 line 237). -/
def connectFailMessage (displayName : String) : String :=
  "Cannot connect to " ++ displayName ++
    ". This app may not support OAuth authentication or requires manual API key setup in Composio dashboard."

/-- The success payload of `connect`. -/
structure ConnectSuccess where
  connectionId : String
  redirectUrl : String
  status : ConnState
  deriving DecidableEq, Repr

structure ConnectOut where
  result : Except TrpcErr ConnectSuccess
  db : Db
  calls : List RemoteCall
  deriving Repr

/-- The router's `connect` procedure.  `authorizeResult` is what
`service.authorizeToolkit` would return (`none` for every failure path);
invoking it contributes the `.authorize` remote call. -/
def connect (auth : Option String) (db : Db) (toolkitName displayName : String)
    (authorizeResult : Option AuthorizeRes) (now : Nat) : ConnectOut :=
  match auth with
  | none =>
    { result := .error (.unauthorized "Login required for Connectors"), db := db, calls := [] }
  | some clerkUserId =>
    let db1 :=
      match findConnection db clerkUserId toolkitName with
      | some _ =>
        updateConnections db clerkUserId toolkitName fun c =>
          { c with status := .pending, updatedAt := some now }
      | none =>
        insertConnection db
          { clerkUserId := clerkUserId, toolkitName := toolkitName,
            displayName := displayName, status := .pending,
            connectedAt := none, metadata := none, updatedAt := none }
    match authorizeResult with
    | none =>
      let db2 := updateConnections db1 clerkUserId toolkitName fun c =>
        { c with status := .error, updatedAt := some now }
      { result := .error (.internalServerError (connectFailMessage displayName)),
        db := db2, calls := [.authorize toolkitName] }
    | some r =>
      { result := .ok { connectionId := r.connectionId, redirectUrl := r.redirectUrl,
                        status := .pending },
        db := db1, calls := [.authorize toolkitName] }

structure DisconnectOut where
  success : Bool
  db : Db
  cache : McpCache
  calls : List RemoteCall
  deriving DecidableEq, Repr

/-- The router's `disconnect` procedure (authenticated path).
`metadataHasConnectionId` is whether `JSON.parse` of the stored metadata
succeeds and yields a `connectionId` (a parse failure is swallowed);
`remoteDeleteOk` is the best-effort `DELETE /connected_accounts/{id}`
outcome — neither affects the local transition. -/
def disconnect (u : String) (db : Db) (toolkitName : String)
    (metadataHasConnectionId : Bool) (remoteDeleteOk : Bool) (now : Nat)
    (cache : McpCache) : DisconnectOut :=
  let calls :=
    match findConnection db u toolkitName with
    | some c =>
      match c.metadata with
      | some _ => if metadataHasConnectionId then [RemoteCall.deleteAccount] else []
      | none => []
    | none => []
  let db1 := updateConnections db u toolkitName fun c =>
    { c with status := .disconnected, connectedAt := none, metadata := none,
             updatedAt := some now }
  let db2 := updateEnabled db1 u toolkitName false
  { success := true, db := db2, cache := invalidateSession cache, calls := calls }

structure PollOut where
  status : ConnState
  db : Db
  cache : McpCache
  deriving DecidableEq, Repr

/-- The router's `pollConnectionStatus` procedure (authenticated path):
maps the remote observation, updates the connection row (an update, not an
upsert), and only on `connected` upserts the enabled flag to `true` and
invalidates the session cache. -/
def pollConnectionStatus (u : String) (db : Db) (toolkitName : String)
    (configured : Bool) (remote : RemoteLookup) (now : Nat) (cache : McpCache) :
    PollOut :=
  let status := getConnectionStatus configured (some u) remote
  let db1 := updateConnections db u toolkitName fun c =>
    { c with status := status,
             connectedAt := if status = ConnState.connected then some now else none,
             updatedAt := some now }
  if status = ConnState.connected then
    { status := status, db := upsertEnabled db1 u toolkitName true,
      cache := invalidateSession cache }
  else
    { status := status, db := db1, cache := cache }

/-- A connected-account object from `GET /connected_accounts` as
`getConnectedAccounts` types it: nested v3 `toolkit` object plus legacy
flat fields. -/
structure AccountToolkit where
  slug : Option String
  name : Option String
  deriving DecidableEq, Repr

structure Account where
  id : String
  toolkit : Option AccountToolkit
  toolkit_slug : Option String
  toolkit_name : Option String
  appName : Option String
  status : String
  deriving DecidableEq, Repr

/-- JS truthiness of an optional string field: `undefined` and `""` are
falsy. -/
def jsTruthy : Option String → Option String
  | some s => if s = "" then none else some s
  | none => none

/-- `account.toolkit?.slug || account.toolkit_slug || account.toolkit_name ||
account.appName` combined with the router's `if (!toolkitName) continue`
guard: `none` means the account is skipped. -/
def resolveToolkitName (acc : Account) : Option String :=
  (jsTruthy (acc.toolkit.bind (·.slug))).orElse fun _ =>
    (jsTruthy acc.toolkit_slug).orElse fun _ =>
      (jsTruthy acc.toolkit_name).orElse fun _ => jsTruthy acc.appName

/-- `account.toolkit?.name || account.toolkit_name || toolkitName`. -/
def resolveDisplayName (acc : Account) (toolkitName : String) : String :=
  match (jsTruthy (acc.toolkit.bind (·.name))).orElse (fun _ => jsTruthy acc.toolkit_name) with
  | some s => s
  | none => toolkitName

/-- `JSON.stringify(\x7b connectionId: account.id \x7d)` for a plain id. -/
def syncMetadata (accountId : String) : String :=
  "\x7b\"connectionId\":\"" ++ accountId ++ "\"\x7d"

/-- The connection-row upsert inside the `syncConnections` loop body. -/
def syncConnUpsert (u : String) (now : Nat) (db : Db) (toolkitName : String)
    (acc : Account) (status : ConnState) : Db :=
  match findConnection db u toolkitName with
  | some _ =>
    updateConnections db u toolkitName fun c =>
      { c with status := status,
               connectedAt := if status = ConnState.connected then some now else none,
               metadata := some (syncMetadata acc.id),
               updatedAt := some now }
  | none =>
    insertConnection db
      { clerkUserId := u, toolkitName := toolkitName,
        displayName := resolveDisplayName acc toolkitName,
        status := status,
        connectedAt := if status = ConnState.connected then some now else none,
        metadata := some (syncMetadata acc.id), updatedAt := none }

/-- One iteration of the `for (const account of accounts)` loop in the
router's `syncConnections`, threading `(db, syncedCount)`. -/
def syncAccount (u : String) (now : Nat) (st : Db × Nat) (acc : Account) : Db × Nat :=
  match resolveToolkitName acc with
  | none => st
  | some toolkitName =>
    let status : ConnState :=
      if jsToUpper acc.status = "ACTIVE" then .connected else .disconnected
    let db1 := syncConnUpsert u now st.1 toolkitName acc status
    let db2 := if status = ConnState.connected then upsertEnabled db1 u toolkitName true else db1
    (db2, st.2 + 1)

/-- The loop of the router's `syncConnections` over the accounts
`service.getConnectedAccounts()` returned (authenticated path). -/
def syncConnectionsAuthed (u : String) (db : Db) (accounts : List Account)
    (now : Nat) : Db × Nat :=
  accounts.foldl (syncAccount u now) (db, 0)

/-- The router's `syncConnections` procedure including `requireAuth`. -/
def syncConnections (auth : Option String) (db : Db) (accounts : List Account)
    (now : Nat) : Except TrpcErr (Db × Nat) :=
  match auth with
  | none => .error (.unauthorized "Login required for Connectors")
  | some u => .ok (syncConnectionsAuthed u db accounts now)

/-! ### Lemmas about the keyed-table operations -/

theorem find?_updateBy_self {α : Type} {p : α → Bool} {f : α → α} {l : List α} {a : α}
    (hf : ∀ x, p x = true → p (f x) = true) (h : l.find? p = some a) :
    (updateBy p f l).find? p = some (f a) := by
  induction l with
  | nil => simp [List.find?] at h
  | cons x xs ih =>
    simp only [updateBy, List.map]
    by_cases hx : p x = true
    · rw [List.find?_cons_of_pos _ hx] at h
      injection h with hxa
      subst hxa
      rw [if_pos hx, List.find?_cons_of_pos _ (hf x hx)]
    · rw [List.find?_cons_of_neg _ hx] at h
      rw [if_neg hx, List.find?_cons_of_neg _ hx]
      exact ih h

theorem find?_updateBy_none {α : Type} {p : α → Bool} {f : α → α} {l : List α}
    (h : l.find? p = none) : (updateBy p f l).find? p = none := by
  rw [List.find?_eq_none] at h ⊢
  intro a ha
  unfold updateBy at ha
  rcases List.mem_map.mp ha with ⟨x, hx, rfl⟩
  have hpx := h x hx
  simp only [if_neg hpx]
  exact hpx

theorem find?_updateBy_other {α : Type} {p q : α → Bool} {f : α → α} {l : List α}
    (hpq : ∀ x, p x = true → q x = false) (hq : ∀ x, q (f x) = q x) :
    (updateBy p f l).find? q = l.find? q := by
  induction l with
  | nil => rfl
  | cons x xs ih =>
    simp only [updateBy, List.map]
    by_cases hx : p x = true
    · have h1 : q x = false := hpq x hx
      have h2 : q (f x) = false := (hq x).trans h1
      rw [if_pos hx, List.find?_cons_of_neg _ (by simp [h2]),
        List.find?_cons_of_neg _ (by simp [h1])]
      exact ih
    · rw [if_neg hx]
      by_cases hqx : q x = true
      · rw [List.find?_cons_of_pos _ hqx, List.find?_cons_of_pos _ hqx]
      · rw [List.find?_cons_of_neg _ hqx, List.find?_cons_of_neg _ hqx]
        exact ih

theorem findConnection_updateConnections_self {db : Db} {u t : String}
    {rec : ConnectionRecord} {f : ConnectionRecord → ConnectionRecord}
    (hf : ∀ c, connKey u t c = true → connKey u t (f c) = true)
    (h : findConnection db u t = some rec) :
    findConnection (updateConnections db u t f) u t = some (f rec) :=
  find?_updateBy_self hf h

theorem findConnection_updateConnections_none {db : Db} {u t : String}
    {f : ConnectionRecord → ConnectionRecord} (h : findConnection db u t = none) :
    findConnection (updateConnections db u t f) u t = none :=
  find?_updateBy_none h

theorem enabledToolkits_updateConnections (db : Db) (u t : String)
    (f : ConnectionRecord → ConnectionRecord) :
    (updateConnections db u t f).enabledToolkits = db.enabledToolkits := rfl

theorem enabledToolkits_insertConnection (db : Db) (c : ConnectionRecord) :
    (insertConnection db c).enabledToolkits = db.enabledToolkits := rfl

theorem connections_upsertEnabled (db : Db) (u t : String) (b : Bool) :
    (upsertEnabled db u t b).connections = db.connections := by
  unfold upsertEnabled
  cases db.enabledToolkits.find? (enabledKey u t) <;> rfl

theorem connections_updateEnabled (db : Db) (u t : String) (b : Bool) :
    (updateEnabled db u t b).connections = db.connections := rfl

theorem find?_updateBy_enabled {l : List EnabledToolkitRecord} {u t : String} (b : Bool)
    {e : EnabledToolkitRecord} (h : l.find? (enabledKey u t) = some e) :
    (updateBy (enabledKey u t) (fun r => { r with enabled := b }) l).find? (enabledKey u t)
      = some { e with enabled := b } :=
  @find?_updateBy_self _ _ (fun r => { r with enabled := b }) _ _ (fun _ hx => hx) h

theorem findEnabled_upsertEnabled_self (db : Db) (u t : String) (b : Bool) :
    findEnabled (upsertEnabled db u t b) u t = some b := by
  unfold upsertEnabled findEnabled
  cases h : db.enabledToolkits.find? (enabledKey u t) with
  | some e =>
    simp only
    rw [find?_updateBy_enabled b h]
    rfl
  | none =>
    simp only
    rw [List.find?_cons_of_pos]
    · rfl
    · show enabledKey u t { clerkUserId := u, toolkitName := t, enabled := b } = true
      simp [enabledKey]

theorem enabledKey_ne {u t u' t' : String} (h : ¬(u = u' ∧ t = t'))
    (e : EnabledToolkitRecord) (he : enabledKey u t e = true) :
    enabledKey u' t' e = false := by
  have h1 : e.clerkUserId = u ∧ e.toolkitName = t := by
    simpa [enabledKey] using he
  simp only [enabledKey, h1.1, h1.2]
  by_cases hu : u = u'
  · have ht : ¬ t = t' := fun ht => h ⟨hu, ht⟩
    simp [beq_iff_eq, hu, ht]
  · simp [beq_iff_eq, hu]

theorem findEnabled_upsertEnabled_other {u t u' t' : String} (db : Db) (b : Bool)
    (h : ¬(u = u' ∧ t = t')) :
    findEnabled (upsertEnabled db u t b) u' t' = findEnabled db u' t' := by
  unfold upsertEnabled findEnabled
  cases hfind : db.enabledToolkits.find? (enabledKey u t) with
  | some e =>
    simp only
    rw [@find?_updateBy_other _ (enabledKey u t) (enabledKey u' t')
      (fun r => { r with enabled := b }) _ (enabledKey_ne h) (fun _ => rfl)]
  | none =>
    simp only
    rw [List.find?_cons_of_neg]
    rw [enabledKey_ne h _ (by simp [enabledKey])]
    simp

theorem findEnabled_updateEnabled_self (db : Db) (u t : String) (b : Bool) :
    findEnabled (updateEnabled db u t b) u t = (findEnabled db u t).map (fun _ => b) := by
  unfold updateEnabled findEnabled
  cases h : db.enabledToolkits.find? (enabledKey u t) with
  | some e =>
    simp only
    rw [find?_updateBy_enabled b h]
    rfl
  | none =>
    simp only
    rw [find?_updateBy_none h]
    rfl

/-! ### Lemmas about the sort-based set comparison -/

theorem sortStr_pair (a b : String) : sortStr [a, b] = sortStr [b, a] := by
  simp only [sortStr, insortStr]
  by_cases h1 : a ≤ b
  · by_cases h2 : b ≤ a
    · rw [if_pos h1, if_pos h2, le_antisymm h1 h2]
    · rw [if_pos h1, if_neg h2]
  · have h2 : b ≤ a := le_of_not_le h1
    rw [if_neg h1, if_pos h2]

theorem arraysEqual_pair (a b : String) : arraysEqual [a, b] [b, a] = true := by
  unfold arraysEqual
  rw [sortStr_pair]
  simp

theorem arraysEqual_pair_symm (x : List String) (a b : String) :
    arraysEqual x [a, b] = arraysEqual x [b, a] := by
  unfold arraysEqual
  rw [sortStr_pair]
  simp

/-! ### Lemmas about the status mapping -/

theorem mapRemoteStatusU_eq_connected_iff (st : String) :
    mapRemoteStatusU st = ConnState.connected ↔ st = "ACTIVE" := by
  unfold mapRemoteStatusU
  split_ifs with h1 h2 h3 <;> simp_all

theorem getConnectionStatus_found (u s : String) :
    getConnectionStatus true (some u) (.found s) = mapRemoteStatusU (jsToUpper s) := rfl

/-- Where the `syncConnections` binary mapping agrees with the
`getConnectionStatus` mapping. -/
theorem syncMap_agrees_iff (st : String) :
    (if st = "ACTIVE" then ConnState.connected else ConnState.disconnected)
        = mapRemoteStatusU st
      ↔ st ∉ (["INITIATED", "INITIALIZING", "FAILED", "EXPIRED", "INACTIVE"] : List String) := by
  unfold mapRemoteStatusU
  by_cases h1 : st = "ACTIVE"
  · subst h1
    simp
  · rw [if_neg h1, if_neg h1]
    by_cases h2 : st = "INITIATED" ∨ st = "INITIALIZING"
    · rw [if_pos h2]
      constructor
      · intro h
        exact absurd h (by simp)
      · intro h
        exact absurd (by rcases h2 with h2 | h2 <;> simp [h2]) h
    · rw [if_neg h2]
      by_cases h3 : st = "FAILED" ∨ st = "EXPIRED" ∨ st = "INACTIVE"
      · rw [if_pos h3]
        constructor
        · intro h
          exact absurd h (by simp)
        · intro h
          exact absurd (by rcases h3 with h3 | h3 | h3 <;> simp [h3]) h
      · rw [if_neg h3]
        constructor
        · intro _
          intro hmem
          simp only [List.mem_cons, List.not_mem_nil, or_false] at hmem
          rcases hmem with h | h | h | h | h
          · exact h2 (Or.inl h)
          · exact h2 (Or.inr h)
          · exact h3 (Or.inl h)
          · exact h3 (Or.inr (Or.inl h))
          · exact h3 (Or.inr (Or.inr h))
        · intro _
          rfl

/-! ### Unfolding equations for the orchestrator operations -/

theorem pollConnectionStatus_eq_connected {u : String} {rl : RemoteLookup}
    (t : String) (db : Db) (now : Nat) (cache : McpCache)
    (h : getConnectionStatus true (some u) rl = ConnState.connected) :
    pollConnectionStatus u db t true rl now cache =
      { status := ConnState.connected,
        db := upsertEnabled (updateConnections db u t fun c =>
          { c with status := ConnState.connected, connectedAt := some now,
                   updatedAt := some now }) u t true,
        cache := invalidateSession cache } := by
  simp [pollConnectionStatus, h]

theorem pollConnectionStatus_eq_not_connected {u : String} {rl : RemoteLookup}
    (t : String) (db : Db) (now : Nat) (cache : McpCache)
    (h : getConnectionStatus true (some u) rl ≠ ConnState.connected) :
    pollConnectionStatus u db t true rl now cache =
      { status := getConnectionStatus true (some u) rl,
        db := updateConnections db u t fun c =>
          { c with status := getConnectionStatus true (some u) rl,
                   connectedAt := none, updatedAt := some now },
        cache := cache } := by
  simp only [pollConnectionStatus, if_neg h]

theorem syncAccount_skip {acc : Account} (u : String) (now : Nat) (st : Db × Nat)
    (h : resolveToolkitName acc = none) : syncAccount u now st acc = st := by
  unfold syncAccount
  rw [h]

theorem syncAccount_eq_active {acc : Account} {tn : String} (u : String) (now : Nat)
    (st : Db × Nat) (h : resolveToolkitName acc = some tn)
    (ha : jsToUpper acc.status = "ACTIVE") :
    syncAccount u now st acc =
      (upsertEnabled (syncConnUpsert u now st.1 tn acc ConnState.connected) u tn true,
       st.2 + 1) := by
  unfold syncAccount
  rw [h]
  simp only [ha, if_pos]

theorem syncAccount_eq_inactive {acc : Account} {tn : String} (u : String) (now : Nat)
    (st : Db × Nat) (h : resolveToolkitName acc = some tn)
    (ha : jsToUpper acc.status ≠ "ACTIVE") :
    syncAccount u now st acc =
      (syncConnUpsert u now st.1 tn acc ConnState.disconnected, st.2 + 1) := by
  unfold syncAccount
  rw [h]
  simp only [if_neg ha]
  rfl

theorem enabledToolkits_syncConnUpsert (u : String) (now : Nat) (db : Db)
    (tn : String) (acc : Account) (status : ConnState) :
    (syncConnUpsert u now db tn acc status).enabledToolkits = db.enabledToolkits := by
  unfold syncConnUpsert
  cases findConnection db u tn <;> rfl

theorem findConnection_syncConnUpsert_self (u : String) (now : Nat) (db : Db)
    (tn : String) (acc : Account) (status : ConnState) :
    ∃ rec, findConnection (syncConnUpsert u now db tn acc status) u tn = some rec ∧
      rec.status = status ∧
      rec.connectedAt = (if status = ConnState.connected then some now else none) ∧
      rec.metadata = some (syncMetadata acc.id) := by
  unfold syncConnUpsert
  cases hfc : findConnection db u tn with
  | some c =>
    refine ⟨{ c with
                status := status,
                connectedAt := if status = ConnState.connected then some now else none,
                metadata := some (syncMetadata acc.id),
                updatedAt := some now },
            ?_, rfl, rfl, rfl⟩
    exact @findConnection_updateConnections_self db u tn c _ (fun _ hx => hx) hfc
  | none =>
    refine ⟨{ clerkUserId := u,
              toolkitName := tn,
              displayName := resolveDisplayName acc tn,
              status := status,
              connectedAt := if status = ConnState.connected then some now else none,
              metadata := some (syncMetadata acc.id),
              updatedAt := none },
            ?_, rfl, rfl, rfl⟩
    show List.find? (connKey u tn) (_ :: db.connections) = _
    rw [List.find?_cons_of_pos _ (by simp [connKey])]

theorem findEnabled_syncConnUpsert (u : String) (now : Nat) (db : Db) (tn : String)
    (acc : Account) (status : ConnState) (u' t' : String) :
    findEnabled (syncConnUpsert u now db tn acc status) u' t' = findEnabled db u' t' := by
  unfold findEnabled
  rw [enabledToolkits_syncConnUpsert]

/-- A sync-loop iteration makes the enabled flag of a pair true only if it
already was, or the pair is the operating user with the account's resolved
slug and the account's status uppercases to ACTIVE. -/
theorem findEnabled_syncAccount (u u' t' : String) (now : Nat) (st : Db × Nat)
    (acc : Account)
    (h : findEnabled (syncAccount u now st acc).1 u' t' = some true) :
    findEnabled st.1 u' t' = some true ∨
      (u' = u ∧ resolveToolkitName acc = some t' ∧ jsToUpper acc.status = "ACTIVE") := by
  cases hres : resolveToolkitName acc with
  | none =>
    rw [syncAccount_skip u now st hres] at h
    exact Or.inl h
  | some tn =>
    by_cases ha : jsToUpper acc.status = "ACTIVE"
    · rw [syncAccount_eq_active u now st hres ha] at h
      have h' : findEnabled
          (upsertEnabled (syncConnUpsert u now st.1 tn acc ConnState.connected) u tn true)
          u' t' = some true := h
      by_cases hk : u = u' ∧ tn = t'
      · exact Or.inr ⟨hk.1.symm, congrArg some hk.2, ha⟩
      · rw [findEnabled_upsertEnabled_other _ true hk, findEnabled_syncConnUpsert] at h'
        exact Or.inl h'
    · rw [syncAccount_eq_inactive u now st hres ha] at h
      have h' : findEnabled (syncConnUpsert u now st.1 tn acc ConnState.disconnected)
          u' t' = some true := h
      rw [findEnabled_syncConnUpsert] at h'
      exact Or.inl h'

theorem findEnabled_syncFold (u u' t' : String) (now : Nat) (accs : List Account) :
    ∀ st : Db × Nat, findEnabled (accs.foldl (syncAccount u now) st).1 u' t' = some true →
      findEnabled st.1 u' t' = some true ∨
        (u' = u ∧ ∃ acc ∈ accs, resolveToolkitName acc = some t' ∧
          jsToUpper acc.status = "ACTIVE") := by
  induction accs with
  | nil =>
    intro st h
    exact Or.inl h
  | cons a as ih =>
    intro st h
    rcases ih (syncAccount u now st a) h with h1 | h1
    · rcases findEnabled_syncAccount u u' t' now st a h1 with h2 | h2
      · exact Or.inl h2
      · exact Or.inr ⟨h2.1, a, List.mem_cons_self a as, h2.2.1, h2.2.2⟩
    · obtain ⟨hu, acc, hm, hp⟩ := h1
      exact Or.inr ⟨hu, acc, List.mem_cons_of_mem a hm, hp⟩

/-! ### Lemmas about the MCP session and url caches -/

theorem arraysEqual_self (l : List String) : arraysEqual l l = true := by
  simp [arraysEqual]

theorem getOrCreateMcpServerRemote_success {cache : McpCache} {toolkits : List String}
    {env : McpEnv} {now : Nat} {srv : McpServer} {cache1 : McpCache}
    {tr : List RemoteCall}
    (h : getOrCreateMcpServerRemote cache toolkits env now = (some srv, cache1, tr)) :
    cache1.cachedMcpServer = some srv ∧ cache1.cachedToolkits = toolkits := by
  unfold getOrCreateMcpServerRemote at h
  cases hex : findExistingServer env toolkits with
  | some s =>
    rw [hex] at h
    simp only [Prod.mk.injEq, Option.some.injEq] at h
    obtain ⟨h1, h2, h3⟩ := h
    subst h2
    subst h1
    exact ⟨rfl, rfl⟩
  | none =>
    rw [hex] at h
    cases hcid : env.createServerId with
    | none =>
      rw [hcid] at h
      simp at h
    | some sid =>
      rw [hcid] at h
      simp only [Prod.mk.injEq, Option.some.injEq] at h
      obtain ⟨h1, h2, h3⟩ := h
      subst h2
      subst h1
      exact ⟨rfl, rfl⟩

theorem getOrCreateMcpServer_success {cache : McpCache} {toolkits : List String}
    {env : McpEnv} {now : Nat} {srv : McpServer} {cache1 : McpCache}
    {tr : List RemoteCall}
    (h : getOrCreateMcpServer cache toolkits env now = (some srv, cache1, tr)) :
    cache1.cachedMcpServer = some srv ∧
      arraysEqual cache1.cachedToolkits toolkits = true := by
  unfold getOrCreateMcpServer at h
  cases hcs : cache.cachedMcpServer with
  | some srv0 =>
    rw [hcs] at h
    dsimp only at h
    by_cases hae : arraysEqual cache.cachedToolkits toolkits = true
    · rw [if_pos hae] at h
      simp only [Prod.mk.injEq, Option.some.injEq] at h
      obtain ⟨h1, h2, h3⟩ := h
      subst h2
      subst h1
      exact ⟨hcs, hae⟩
    · rw [if_neg hae] at h
      obtain ⟨h1, h2⟩ := getOrCreateMcpServerRemote_success h
      exact ⟨h1, by rw [h2]; exact arraysEqual_self toolkits⟩
  | none =>
    rw [hcs] at h
    dsimp only at h
    obtain ⟨h1, h2⟩ := getOrCreateMcpServerRemote_success h
    exact ⟨h1, by rw [h2]; exact arraysEqual_self toolkits⟩

theorem cachedMcpUrl_getOrCreateMcpServerRemote (cache : McpCache)
    (toolkits : List String) (env : McpEnv) (now : Nat) :
    (getOrCreateMcpServerRemote cache toolkits env now).2.1.cachedMcpUrl
      = cache.cachedMcpUrl := by
  unfold getOrCreateMcpServerRemote
  cases findExistingServer env toolkits with
  | some s => rfl
  | none => cases env.createServerId <;> rfl

theorem cachedMcpUrl_getOrCreateMcpServer (cache : McpCache)
    (toolkits : List String) (env : McpEnv) (now : Nat) :
    (getOrCreateMcpServer cache toolkits env now).2.1.cachedMcpUrl
      = cache.cachedMcpUrl := by
  unfold getOrCreateMcpServer
  cases cache.cachedMcpServer with
  | some srv =>
    dsimp only
    by_cases hae : arraysEqual cache.cachedToolkits toolkits = true
    · rw [if_pos hae]
    · rw [if_neg hae]
      exact cachedMcpUrl_getOrCreateMcpServerRemote cache toolkits env now
  | none => exact cachedMcpUrl_getOrCreateMcpServerRemote cache toolkits env now

theorem generateMcpUrlMint_success {cache : McpCache} {sid uid : String} {now : Nat}
    {r : Option String} {url : String} {cache1 : McpCache} {tr : List RemoteCall}
    (h : generateMcpUrlMint cache sid uid now r = (some url, cache1, tr)) :
    r = some url ∧ cache1.cachedMcpUrl = some url ∧ cache1.cachedUserId = some uid := by
  unfold generateMcpUrlMint at h
  cases hr : r with
  | none =>
    rw [hr] at h
    simp at h
  | some u0 =>
    rw [hr] at h
    simp only [Prod.mk.injEq, Option.some.injEq] at h
    obtain ⟨h1, h2, h3⟩ := h
    subst h2
    subst h1
    exact ⟨rfl, rfl, rfl⟩

theorem generateMcpUrl_success {cache : McpCache} {sid uid : String} {now : Nat}
    {r : Option String} {url : String} {cache1 : McpCache} {tr : List RemoteCall}
    (h : generateMcpUrl cache sid uid now r = (some url, cache1, tr)) :
    cache1.cachedMcpUrl = some url ∧ cache1.cachedUserId = some uid := by
  unfold generateMcpUrl at h
  cases hcu : cache.cachedMcpUrl with
  | some url0 =>
    rw [hcu] at h
    dsimp only at h
    by_cases hcond : cache.cachedUserId = some uid ∧ now < cache.mcpUrlExpiry
    · rw [if_pos hcond] at h
      simp only [Prod.mk.injEq, Option.some.injEq] at h
      obtain ⟨h1, h2, h3⟩ := h
      subst h2
      subst h1
      exact ⟨hcu, hcond.1⟩
    · rw [if_neg hcond] at h
      exact (generateMcpUrlMint_success h).2
  | none =>
    rw [hcu] at h
    dsimp only at h
    exact (generateMcpUrlMint_success h).2

theorem generateMcpUrl_fresh {cache : McpCache} {sid uid : String} {now : Nat}
    {r : Option String} {url : String} {cache1 : McpCache} {tr : List RemoteCall}
    (hnone : cache.cachedMcpUrl = none)
    (h : generateMcpUrl cache sid uid now r = (some url, cache1, tr)) :
    r = some url := by
  unfold generateMcpUrl at h
  rw [hnone] at h
  dsimp only at h
  exact (generateMcpUrlMint_success h).1

theorem generateMcpUrl_hit {cache : McpCache} {sid uid : String} {now : Nat}
    {r : Option String} {url : String}
    (h1 : cache.cachedMcpUrl = some url) (h2 : cache.cachedUserId = some uid)
    (h3 : now < cache.mcpUrlExpiry) :
    generateMcpUrl cache sid uid now r = (some url, cache, []) := by
  unfold generateMcpUrl
  rw [h1]
  dsimp only
  rw [if_pos ⟨h2, h3⟩]

theorem generateMcpUrl_miss {cache : McpCache} {sid uid : String} {now : Nat}
    {r : Option String}
    (hmiss : ¬(cache.cachedUserId = some uid ∧ now < cache.mcpUrlExpiry)) :
    generateMcpUrl cache sid uid now r = generateMcpUrlMint cache sid uid now r := by
  unfold generateMcpUrl
  cases hcu : cache.cachedMcpUrl with
  | some url0 =>
    dsimp only
    rw [if_neg hmiss]
  | none => rfl

theorem findConnection_upsertEnabled (db : Db) (u t u' t' : String) (b : Bool) :
    findConnection (upsertEnabled db u t b) u' t' = findConnection db u' t' := by
  unfold findConnection
  rw [connections_upsertEnabled]

theorem findConnection_updateEnabled (db : Db) (u t u' t' : String) (b : Bool) :
    findConnection (updateEnabled db u t b) u' t' = findConnection db u' t' := rfl

theorem findEnabled_updateConnections (db : Db) (u t u' t' : String)
    (f : ConnectionRecord → ConnectionRecord) :
    findEnabled (updateConnections db u t f) u' t' = findEnabled db u' t' := rfl

theorem findConnection_insert_key (db : Db) (rec : ConnectionRecord) :
    findConnection (insertConnection db rec) rec.clerkUserId rec.toolkitName
      = some rec := by
  unfold findConnection insertConnection
  exact List.find?_cons_of_pos _ (by simp [connKey])

theorem connect_none_existing {db : Db} {u t : String} {rec : ConnectionRecord}
    (d : String) (now : Nat) (hfc : findConnection db u t = some rec) :
    connect (some u) db t d none now =
      { result := .error (.internalServerError (connectFailMessage d)),
        db := updateConnections (updateConnections db u t fun c =>
            { c with status := ConnState.pending, updatedAt := some now }) u t fun c =>
            { c with status := ConnState.error, updatedAt := some now },
        calls := [.authorize t] } := by
  unfold connect
  dsimp only
  rw [hfc]

theorem connect_none_missing {db : Db} {u t : String} (d : String) (now : Nat)
    (hfc : findConnection db u t = none) :
    connect (some u) db t d none now =
      { result := .error (.internalServerError (connectFailMessage d)),
        db := updateConnections (insertConnection db
            { clerkUserId := u, toolkitName := t, displayName := d,
              status := ConnState.pending, connectedAt := none, metadata := none,
              updatedAt := none }) u t fun c =>
            { c with status := ConnState.error, updatedAt := some now },
        calls := [.authorize t] } := by
  unfold connect
  dsimp only
  rw [hfc]

theorem enabledToolkits_connect (u : String) (db : Db) (t d : String)
    (ar : Option AuthorizeRes) (now : Nat) :
    (connect (some u) db t d ar now).db.enabledToolkits = db.enabledToolkits := by
  unfold connect
  dsimp only
  cases hfc : findConnection db u t <;> cases ar <;> rfl

/-! ### Concrete fixtures used by witnesses and counterexamples -/

def mcpCache0 : McpCache :=
  { cachedMcpServer := none, cachedMcpUrl := none, mcpUrlExpiry := 0,
    cachedUserId := none, cachedToolkits := [] }

def rec0 : ConnectionRecord :=
  { clerkUserId := "u1", toolkitName := "github", displayName := "GitHub",
    status := ConnState.pending, connectedAt := none, metadata := none,
    updatedAt := none }

def db0 : Db := { connections := [rec0], enabledToolkits := [] }

def accInitiated : Account :=
  { id := "a1", toolkit := some { slug := some "github", name := some "GitHub" },
    toolkit_slug := none, toolkit_name := none, appName := none,
    status := "INITIATED" }

def accActive : Account :=
  { id := "a2", toolkit := some { slug := some "github", name := some "GitHub" },
    toolkit_slug := none, toolkit_name := none, appName := none,
    status := "ACTIVE" }

/-! ### The claims -/

/-- C1 counterexample: `syncConnections` does not apply the `pollStatus`
status mapping.  For a remote connected account with status "INITIATED"
(resolved slug "github"), the loop persists `disconnected`, while the
mapping used by `pollStatus` (`getConnectionStatus`) yields `pending`. -/
theorem C1_sync_not_poll_mapping_counterexample :
    (findConnection (syncConnectionsAuthed "u1" emptyDb [accInitiated] 5).1
        "u1" "github").map (·.status) = some ConnState.disconnected
    ∧ getConnectionStatus true (some "u1") (.found "INITIATED") = ConnState.pending
    ∧ ConnState.disconnected ≠ ConnState.pending := by
  refine ⟨by decide, by decide, by decide⟩

/-- C1 (amended): for every account a `syncConnections` loop iteration
processes whose toolkit slug resolves, the persisted status is `connected`
when the remote status uppercases to "ACTIVE" and `disconnected` for every
other status; this two-valued mapping agrees with the `pollStatus` mapping
exactly when the uppercased status lies outside
INITIATED/INITIALIZING/FAILED/EXPIRED/INACTIVE. -/
theorem C1_sync_status_mapping_amended (u s : String) (db : Db) (n now : Nat)
    (acc : Account) (hres : resolveToolkitName acc = some s) :
    (∃ rec, findConnection (syncAccount u now (db, n) acc).1 u s = some rec ∧
       rec.status = (if jsToUpper acc.status = "ACTIVE" then ConnState.connected
                     else ConnState.disconnected))
    ∧ ((if jsToUpper acc.status = "ACTIVE" then ConnState.connected
        else ConnState.disconnected) = mapRemoteStatusU (jsToUpper acc.status)
       ↔ jsToUpper acc.status ∉
          (["INITIATED", "INITIALIZING", "FAILED", "EXPIRED", "INACTIVE"] : List String)) := by
  constructor
  · by_cases ha : jsToUpper acc.status = "ACTIVE"
    · rw [syncAccount_eq_active u now (db, n) hres ha]
      obtain ⟨rec, hfc, hst, _, _⟩ :=
        findConnection_syncConnUpsert_self u now db s acc ConnState.connected
      refine ⟨rec, ?_, ?_⟩
      · show findConnection
          (upsertEnabled (syncConnUpsert u now db s acc ConnState.connected) u s true)
          u s = some rec
        rw [findConnection_upsertEnabled]
        exact hfc
      · rw [if_pos ha]
        exact hst
    · rw [syncAccount_eq_inactive u now (db, n) hres ha]
      obtain ⟨rec, hfc, hst, _, _⟩ :=
        findConnection_syncConnUpsert_self u now db s acc ConnState.disconnected
      refine ⟨rec, hfc, ?_⟩
      rw [if_neg ha]
      exact hst
  · exact syncMap_agrees_iff (jsToUpper acc.status)

/-- C1 witness: the amended mapping at a concrete ACTIVE account. -/
theorem C1_sync_status_mapping_amended_witness :
    ∃ rec, findConnection (syncAccount "u1" 5 (emptyDb, 0) accActive).1
        "u1" "github" = some rec ∧
      rec.status = (if jsToUpper accActive.status = "ACTIVE" then ConnState.connected
                    else ConnState.disconnected) :=
  (C1_sync_status_mapping_amended "u1" "github" emptyDb 0 5 accActive rfl).1

/-- C2 counterexample: after the completed operation
`toggleToolkit("github", true)` on an empty store, the enabled flag persists
as `true` while no ConnectionRecord exists for the pair (so its status is
not `connected`). -/
theorem C2_enabled_invariant_counterexample :
    findEnabled (toggleToolkit "u1" emptyDb "github" true mcpCache0).1
        "u1" "github" = some true
    ∧ findConnection (toggleToolkit "u1" emptyDb "github" true mcpCache0).1
        "u1" "github" = none := by
  refine ⟨by decide, by decide⟩

/-- C2 (amended): the cross-table invariant does not survive every completed
operation — `toggleToolkit(s, true)` persists `enabled = true` regardless of
the pair's connection status (counterexample above).  What does hold:
`pollConnectionStatus` and `syncConnections` newly set a pair's flag to
`true` only when the status they simultaneously derive for it is `connected`
(for sync: some processed account resolving to that slug was ACTIVE),
`connect` never writes the enabled table, and `disconnect` always leaves the
pair's flag not `true`. -/
theorem C2_enabled_invariant_amended (u u' t t' d : String) (db : Db)
    (rl : RemoteLookup) (ar : Option AuthorizeRes) (accs : List Account)
    (mp rd : Bool) (now : Nat) (cache : McpCache) :
    (findEnabled (pollConnectionStatus u db t true rl now cache).db u' t' = some true →
       findEnabled db u' t' = some true ∨
         (u' = u ∧ t' = t ∧ getConnectionStatus true (some u) rl = ConnState.connected))
    ∧ (findEnabled (syncConnectionsAuthed u db accs now).1 u' t' = some true →
       findEnabled db u' t' = some true ∨
         (u' = u ∧ ∃ acc ∈ accs, resolveToolkitName acc = some t' ∧
           jsToUpper acc.status = "ACTIVE"))
    ∧ (connect (some u) db t d ar now).db.enabledToolkits = db.enabledToolkits
    ∧ findEnabled (disconnect u db t mp rd now cache).db u t ≠ some true := by
  refine ⟨?_, ?_, enabledToolkits_connect u db t d ar now, ?_⟩
  · intro h
    by_cases hst : getConnectionStatus true (some u) rl = ConnState.connected
    · rw [pollConnectionStatus_eq_connected t db now cache hst] at h
      by_cases hk : u = u' ∧ t = t'
      · exact Or.inr ⟨hk.1.symm, hk.2.symm, hst⟩
      · rw [findEnabled_upsertEnabled_other _ true hk,
          findEnabled_updateConnections] at h
        exact Or.inl h
    · rw [pollConnectionStatus_eq_not_connected t db now cache hst,
        findEnabled_updateConnections] at h
      exact Or.inl h
  · intro h
    exact findEnabled_syncFold u u' t' now accs (db, 0) h
  · intro hcontra
    have heq : findEnabled (disconnect u db t mp rd now cache).db u t
        = (findEnabled db u t).map (fun _ => false) := by
      show findEnabled (updateEnabled (updateConnections db u t _) u t false) u t = _
      rw [findEnabled_updateEnabled_self, findEnabled_updateConnections]
    rw [heq] at hcontra
    cases hfe : findEnabled db u t <;> rw [hfe] at hcontra <;> simp at hcontra

/-- C4: with no authenticated user, `connect` fails with the Unauthenticated
error before any remote call (empty call trace) and before any local write
(the store is returned unchanged). -/
theorem C4_connect_unauthenticated (db : Db) (t d : String)
    (ar : Option AuthorizeRes) (now : Nat) :
    connect none db t d ar now =
      { result := .error (.unauthorized "Login required for Connectors"),
        db := db, calls := [] } := rfl

/-- C3: for a pair with an existing ConnectionRecord, a poll observing a
remote status that uppercases to "ACTIVE" persists `connected` with a
non-null `connectedAt`, upserts the enabled flag to `true` and invalidates
the session cache; any other observed status persists the mapped status with
`connectedAt = null`, leaves the enabled table untouched and the cache
alone. -/
theorem C3_poll_active_persists (u t : String) (db : Db) (rec : ConnectionRecord)
    (s : String) (now : Nat) (cache : McpCache)
    (hrec : findConnection db u t = some rec) :
    (jsToUpper s = "ACTIVE" →
      findConnection (pollConnectionStatus u db t true (.found s) now cache).db u t
          = some { rec with
                    status := ConnState.connected,
                    connectedAt := some now,
                    updatedAt := some now }
      ∧ findEnabled (pollConnectionStatus u db t true (.found s) now cache).db u t
          = some true
      ∧ (pollConnectionStatus u db t true (.found s) now cache).cache
          = invalidateSession cache)
    ∧ (jsToUpper s ≠ "ACTIVE" →
      findConnection (pollConnectionStatus u db t true (.found s) now cache).db u t
          = some { rec with
                    status := mapRemoteStatusU (jsToUpper s),
                    connectedAt := none,
                    updatedAt := some now }
      ∧ (pollConnectionStatus u db t true (.found s) now cache).db.enabledToolkits
          = db.enabledToolkits
      ∧ (pollConnectionStatus u db t true (.found s) now cache).cache = cache) := by
  constructor
  · intro ha
    have hst : getConnectionStatus true (some u) (.found s) = ConnState.connected := by
      rw [getConnectionStatus_found]
      exact (mapRemoteStatusU_eq_connected_iff (jsToUpper s)).mpr ha
    rw [pollConnectionStatus_eq_connected t db now cache hst]
    refine ⟨?_, findEnabled_upsertEnabled_self _ u t true, rfl⟩
    rw [findConnection_upsertEnabled]
    exact @findConnection_updateConnections_self db u t rec
      (fun c => { c with
                   status := ConnState.connected,
                   connectedAt := some now,
                   updatedAt := some now }) (fun _ hx => hx) hrec
  · intro ha
    have hst : getConnectionStatus true (some u) (.found s) ≠ ConnState.connected := by
      rw [getConnectionStatus_found]
      intro hc
      exact ha ((mapRemoteStatusU_eq_connected_iff (jsToUpper s)).mp hc)
    rw [pollConnectionStatus_eq_not_connected t db now cache hst]
    refine ⟨?_, rfl, rfl⟩
    exact @findConnection_updateConnections_self db u t rec
      (fun c => { c with
                   status := getConnectionStatus true (some u) (.found s),
                   connectedAt := none,
                   updatedAt := some now }) (fun _ hx => hx) hrec

/-- C3 witness: the ACTIVE branch at a concrete store holding one pending
record. -/
theorem C3_poll_active_persists_witness :
    findConnection (pollConnectionStatus "u1" db0 "github" true (.found "ACTIVE")
        9 mcpCache0).db "u1" "github"
      = some { rec0 with
                status := ConnState.connected,
                connectedAt := some 9,
                updatedAt := some 9 }
    ∧ findEnabled (pollConnectionStatus "u1" db0 "github" true (.found "ACTIVE")
        9 mcpCache0).db "u1" "github" = some true
    ∧ (pollConnectionStatus "u1" db0 "github" true (.found "ACTIVE")
        9 mcpCache0).cache = invalidateSession mcpCache0 :=
  (C3_poll_active_persists "u1" "github" db0 rec0 "ACTIVE" 9 mcpCache0 rfl).1 rfl

/-- C5: when no auth config can be resolved (the service's authorize step
yields nothing), `connect` raises the internal failure whose message
mentions manual API key setup, leaves the pair's ConnectionRecord with
status `error`, and does not change the enabled table (a flag that was not
`true` stays not `true`). -/
theorem C5_connect_no_auth_config (u t d : String) (db : Db) (now : Nat)
    (hen : findEnabled db u t ≠ some true) :
    (connect (some u) db t d none now).result
        = .error (.internalServerError (connectFailMessage d))
    ∧ (∃ p q, connectFailMessage d = p ++ "manual API key setup" ++ q)
    ∧ (∃ rec, findConnection (connect (some u) db t d none now).db u t = some rec ∧
        rec.status = ConnState.error)
    ∧ findEnabled (connect (some u) db t d none now).db u t ≠ some true := by
  refine ⟨?_, ?_, ?_, ?_⟩
  · cases hfc : findConnection db u t with
    | some rec => rw [connect_none_existing d now hfc]
    | none => rw [connect_none_missing d now hfc]
  · refine ⟨"Cannot connect to " ++ d ++
      ". This app may not support OAuth authentication or requires ",
      " in Composio dashboard.", ?_⟩
    unfold connectFailMessage
    simp only [String.append_assoc]
    rfl
  · cases hfc : findConnection db u t with
    | some rec =>
      rw [connect_none_existing d now hfc]
      have h1 := @findConnection_updateConnections_self db u t rec
        (fun c => { c with status := ConnState.pending, updatedAt := some now })
        (fun _ hx => hx) hfc
      have h2 := @findConnection_updateConnections_self _ u t _
        (fun c => { c with status := ConnState.error, updatedAt := some now })
        (fun _ hx => hx) h1
      exact ⟨_, h2, rfl⟩
    | none =>
      rw [connect_none_missing d now hfc]
      have h1 : findConnection (insertConnection db
          { clerkUserId := u, toolkitName := t, displayName := d,
            status := ConnState.pending, connectedAt := none, metadata := none,
            updatedAt := none }) u t = some
          { clerkUserId := u, toolkitName := t, displayName := d,
            status := ConnState.pending, connectedAt := none, metadata := none,
            updatedAt := none } :=
        findConnection_insert_key db _
      have h2 := @findConnection_updateConnections_self _ u t _
        (fun c => { c with status := ConnState.error, updatedAt := some now })
        (fun _ hx => hx) h1
      exact ⟨_, h2, rfl⟩
  · unfold findEnabled at hen ⊢
    rw [enabledToolkits_connect]
    exact hen

/-- C5 witness: concrete failing connect on an empty store. -/
theorem C5_connect_no_auth_config_witness :
    (connect (some "u1") emptyDb "github" "GitHub" none 7).result
        = .error (.internalServerError (connectFailMessage "GitHub"))
    ∧ (∃ p q, connectFailMessage "GitHub" = p ++ "manual API key setup" ++ q)
    ∧ (∃ rec, findConnection (connect (some "u1") emptyDb "github" "GitHub" none 7).db
        "u1" "github" = some rec ∧ rec.status = ConnState.error)
    ∧ findEnabled (connect (some "u1") emptyDb "github" "GitHub" none 7).db
        "u1" "github" ≠ some true :=
  C5_connect_no_auth_config "u1" "github" "GitHub" emptyDb 7 (by decide)

/-- C6: for a pair with an existing ConnectionRecord, `disconnect` always
persists status `disconnected` with `metadata` and `connectedAt` cleared,
forces the enabled flag off (an existing flag row becomes `false`, and the
flag is never `true` afterwards), and invalidates the session cache — for
every metadata-parse outcome and every remote-delete outcome. -/
theorem C6_disconnect_forces_local_state (u t : String) (db : Db)
    (rec : ConnectionRecord) (mp rd : Bool) (now : Nat) (cache : McpCache)
    (hrec : findConnection db u t = some rec) :
    findConnection (disconnect u db t mp rd now cache).db u t
        = some { rec with
                  status := ConnState.disconnected,
                  connectedAt := none,
                  metadata := none,
                  updatedAt := some now }
    ∧ findEnabled (disconnect u db t mp rd now cache).db u t
        = (findEnabled db u t).map (fun _ => false)
    ∧ findEnabled (disconnect u db t mp rd now cache).db u t ≠ some true
    ∧ (disconnect u db t mp rd now cache).cache = invalidateSession cache := by
  have hdb : (disconnect u db t mp rd now cache).db
      = updateEnabled (updateConnections db u t fun c =>
          { c with status := ConnState.disconnected, connectedAt := none,
                   metadata := none, updatedAt := some now }) u t false := rfl
  have hmap : findEnabled (disconnect u db t mp rd now cache).db u t
      = (findEnabled db u t).map (fun _ => false) := by
    rw [hdb, findEnabled_updateEnabled_self, findEnabled_updateConnections]
  refine ⟨?_, hmap, ?_, rfl⟩
  · rw [hdb, findConnection_updateEnabled]
    exact @findConnection_updateConnections_self db u t rec
      (fun c => { c with
                   status := ConnState.disconnected,
                   connectedAt := none,
                   metadata := none,
                   updatedAt := some now }) (fun _ hx => hx) hrec
  · rw [hmap]
    cases findEnabled db u t <;> simp

/-- C6 witness: concrete disconnect of a connected pair with unparseable
metadata and a failing remote delete. -/
theorem C6_disconnect_forces_local_state_witness :
    findConnection (disconnect "u1" db0 "github" false false 11 mcpCache0).db
        "u1" "github"
      = some { rec0 with
                status := ConnState.disconnected,
                connectedAt := none,
                metadata := none,
                updatedAt := some 11 }
    ∧ findEnabled (disconnect "u1" db0 "github" false false 11 mcpCache0).db
        "u1" "github" = (findEnabled db0 "u1" "github").map (fun _ => false)
    ∧ findEnabled (disconnect "u1" db0 "github" false false 11 mcpCache0).db
        "u1" "github" ≠ some true
    ∧ (disconnect "u1" db0 "github" false false 11 mcpCache0).cache
        = invalidateSession mcpCache0 :=
  C6_disconnect_forces_local_state "u1" "github" db0 rec0 false false 11 mcpCache0 rfl

def envList0 : McpEnv :=
  { listServersResult := some [], createServerId := some "srv1",
    generateUrlResult := none }

def env2c : McpEnv :=
  { listServersResult := none, createServerId := none, generateUrlResult := none }

def srv1 : McpServer := { id := "srv1", name := "anchor-3", toolkits := ["tk1", "tk2"] }

def cacheSrv1 : McpCache :=
  { cachedMcpServer := some srv1, cachedMcpUrl := none, mcpUrlExpiry := 0,
    cachedUserId := none, cachedToolkits := ["tk1", "tk2"] }

def cacheUrl1 : McpCache :=
  { cachedMcpServer := none, cachedMcpUrl := some "https://mcp.example/u1",
    mcpUrlExpiry := 1800000, cachedUserId := some "u1", cachedToolkits := [] }

/-- C7: after any successful `getOrCreateMcpServer` call for the two-element
list `[a, b]`, a second call with the same elements in the other insertion
order is a cache hit: it returns the same cached handle, leaves the cache
unchanged, and issues no remote request (empty call trace), for every remote
environment and time of the second call. -/
theorem C7_session_cache_order_independent (a b : String) (cache : McpCache)
    (env1 env2 : McpEnv) (now1 now2 : Nat) (srv : McpServer) (cache1 : McpCache)
    (tr1 : List RemoteCall)
    (h : getOrCreateMcpServer cache [a, b] env1 now1 = (some srv, cache1, tr1)) :
    getOrCreateMcpServer cache1 [b, a] env2 now2 = (some srv, cache1, []) := by
  obtain ⟨h1, h2⟩ := getOrCreateMcpServer_success h
  have h3 : arraysEqual cache1.cachedToolkits [b, a] = true := by
    rw [← arraysEqual_pair_symm]
    exact h2
  unfold getOrCreateMcpServer
  rw [h1]
  dsimp only
  rw [if_pos h3]

/-- C7 witness: a concrete first build of `["tk1", "tk2"]` followed by a
request for `["tk2", "tk1"]`. -/
theorem C7_session_cache_order_independent_witness :
    getOrCreateMcpServer cacheSrv1 ["tk2", "tk1"] env2c 7 = (some srv1, cacheSrv1, []) :=
  C7_session_cache_order_independent "tk1" "tk2" mcpCache0 envList0 env2c 3 7
    srv1 cacheSrv1 [RemoteCall.listServers, RemoteCall.createServer "anchor-3"]
    (by decide)

/-- C8: after any successful `generateMcpUrl` call, (i) a second call for
the same user strictly before the cached expiry returns the identical cached
url with no remote call and an unchanged cache; (ii) a second call at or
after the expiry mints the fresh remote url and re-caches it with expiry
`now + 30` minutes; (iii) a call for a different user likewise mints fresh
state, whatever the time. -/
theorem C8_url_cache_ttl (cache : McpCache) (sid uid : String) (now1 : Nat)
    (r1 : Option String) (url : String) (cache1 : McpCache) (tr1 : List RemoteCall)
    (h : generateMcpUrl cache sid uid now1 r1 = (some url, cache1, tr1)) :
    (∀ now2 r2, now2 < cache1.mcpUrlExpiry →
       generateMcpUrl cache1 sid uid now2 r2 = (some url, cache1, []))
    ∧ (∀ now2 u2, cache1.mcpUrlExpiry ≤ now2 →
       generateMcpUrl cache1 sid uid now2 (some u2) =
         (some u2,
          { cache1 with
             cachedMcpUrl := some u2,
             cachedUserId := some uid,
             mcpUrlExpiry := now2 + 30 * 60 * 1000 },
          [RemoteCall.generateUrl sid uid]))
    ∧ (∀ now2 uid2 u2, uid2 ≠ uid →
       generateMcpUrl cache1 sid uid2 now2 (some u2) =
         (some u2,
          { cache1 with
             cachedMcpUrl := some u2,
             cachedUserId := some uid2,
             mcpUrlExpiry := now2 + 30 * 60 * 1000 },
          [RemoteCall.generateUrl sid uid2])) := by
  obtain ⟨hurl, huid⟩ := generateMcpUrl_success h
  refine ⟨?_, ?_, ?_⟩
  · intro now2 r2 hlt
    exact generateMcpUrl_hit hurl huid hlt
  · intro now2 u2 hge
    rw [generateMcpUrl_miss (fun hc => absurd hc.2 (not_lt.mpr hge))]
    unfold generateMcpUrlMint
    rfl
  · intro now2 uid2 u2 hne
    rw [generateMcpUrl_miss
      (fun hc => hne (Option.some.inj (huid.symm.trans hc.1)).symm)]
    unfold generateMcpUrlMint
    rfl

/-- C8 witness: mint at time 0, cache hit at time 5 for the same user. -/
theorem C8_url_cache_ttl_witness :
    generateMcpUrl cacheUrl1 "s1" "u1" 5 none
      = (some "https://mcp.example/u1", cacheUrl1, []) :=
  (C8_url_cache_ttl mcpCache0 "s1" "u1" 0 (some "https://mcp.example/u1")
    "https://mcp.example/u1" cacheUrl1 [RemoteCall.generateUrl "s1" "u1"]
    (by decide)).1 5 none (by decide)

theorem serviceGetMcpConfig_fresh {apiKey uid : String} {tks : List String}
    {cache : McpCache} {env : McpEnv} {now : Nat} {cfg : McpConfig}
    {cache2 : McpCache} {tr : List RemoteCall}
    (hnone : cache.cachedMcpUrl = none)
    (h : serviceGetMcpConfig apiKey (some uid) tks cache env now
      = (some cfg, cache2, tr)) :
    env.generateUrlResult = some cfg.url := by
  unfold serviceGetMcpConfig at h
  split at h
  · simp at h
  · dsimp only at h
    split at h
    · simp at h
    · split at h
      · simp at h
      · rename_i srv cache1 t1 heq
        split at h
        · simp at h
        · rename_i url cache2x t2 heq2
          simp only [Prod.mk.injEq, Option.some.injEq] at h
          obtain ⟨h1, h2, h3⟩ := h
          have hc1 : cache1.cachedMcpUrl = none := by
            have hp : (getOrCreateMcpServer cache tks env now).2.1.cachedMcpUrl
                = cache1.cachedMcpUrl := by rw [heq]
            rw [← hp, cachedMcpUrl_getOrCreateMcpServer, hnone]
          have hfr := generateMcpUrl_fresh hc1 heq2
          rw [hfr, ← h1]

/-- C9: `toggleToolkit(s, true)` unconditionally clears the session/url
caches (the resulting cache is the invalidated one), and any url a
`getMcpConfig` request returns right after the toggle is the one freshly
minted by the remote in that very request — never a url cached before the
toggle. -/
theorem C9_toggle_then_config_fresh_url (u t apiKey : String) (db : Db)
    (cache : McpCache) (env : McpEnv) (now2 : Nat) :
    (toggleToolkit u db t true cache).2 = invalidateSession cache
    ∧ (∀ cfg cache2 tr,
        routerGetMcpConfig apiKey (some u) (toggleToolkit u db t true cache).1
            (toggleToolkit u db t true cache).2 env now2 = (some cfg, cache2, tr) →
        env.generateUrlResult = some cfg.url) := by
  refine ⟨rfl, ?_⟩
  intro cfg cache2 tr h
  unfold routerGetMcpConfig at h
  split at h
  · simp at h
  · dsimp only at h
    split at h
    · simp at h
    · exact serviceGetMcpConfig_fresh rfl h

/-- C10: when no ConnectionRecord exists for the pair, `pollConnectionStatus`
never creates one (its write is an update matching zero rows) for any
observation — yet when the observation maps to `connected` it still upserts
the enabled flag to `true`, so the flag can be `true` with no connection
row. -/
theorem C10_poll_missing_record (u t : String) (db : Db) (rl : RemoteLookup)
    (now : Nat) (cache : McpCache) (hnone : findConnection db u t = none) :
    findConnection (pollConnectionStatus u db t true rl now cache).db u t = none
    ∧ (getConnectionStatus true (some u) rl = ConnState.connected →
       findEnabled (pollConnectionStatus u db t true rl now cache).db u t = some true) := by
  by_cases hst : getConnectionStatus true (some u) rl = ConnState.connected
  · rw [pollConnectionStatus_eq_connected t db now cache hst]
    constructor
    · rw [findConnection_upsertEnabled]
      exact findConnection_updateConnections_none hnone
    · intro _
      exact findEnabled_upsertEnabled_self _ u t true
  · rw [pollConnectionStatus_eq_not_connected t db now cache hst]
    exact ⟨findConnection_updateConnections_none hnone, fun hc => absurd hc hst⟩

/-- C10 witness: polling an ACTIVE remote account for a pair with no stored
connection row. -/
theorem C10_poll_missing_record_witness :
    findConnection (pollConnectionStatus "u1" emptyDb "github" true
        (.found "ACTIVE") 4 mcpCache0).db "u1" "github" = none
    ∧ (getConnectionStatus true (some "u1") (.found "ACTIVE") = ConnState.connected →
       findEnabled (pollConnectionStatus "u1" emptyDb "github" true
        (.found "ACTIVE") 4 mcpCache0).db "u1" "github" = some true) :=
  C10_poll_missing_record "u1" "github" emptyDb (.found "ACTIVE") 4 mcpCache0 rfl
